import Mathlib

/-!
Verification of the quiz-text parser and Google-Forms request compiler of
`Form_app.py` (functions `parse_questions` and `create_google_form`).

Strings are modelled as `List Char`.  The Python string helpers used by the
source (`strip`, `split`, `upper`, `startswith`, substring membership,
`lstrip`, `int(...)`, regular-expression fragments) are embedded as
executable Lean functions, and `parse_questions` / the request-building part
of `create_google_form` are translated line by line from the source.
-/

abbrev Str := List Char

/-- Whitespace characters recognised by Python `str.strip` and by the
regular-expression class used in the source (space, tab, newline, carriage
return, vertical tab, form feed). -/
def pyWs (c : Char) : Bool :=
  c == ' ' || c == '\t' || c == '\n' || c == '\r' || c == '\x0b' || c == '\x0c'

/-- Python `s.strip()`: remove leading and trailing whitespace. -/
def pyStrip (s : Str) : Str :=
  ((s.dropWhile pyWs).reverse.dropWhile pyWs).reverse

/-- Python `s.upper()` restricted to the ASCII inputs the source handles. -/
def pyUpper (s : Str) : Str := s.map Char.toUpper

/-- Python `s.split(sep)` for a one-character separator; always returns a
non-empty list (splitting the empty string yields `[[]]`). -/
def splitOnChar (sep : Char) : Str → List Str
  | [] => [[]]
  | c :: cs =>
    if c = sep then [] :: splitOnChar sep cs
    else
      match splitOnChar sep cs with
      | [] => [[c]]
      | l :: ls => (c :: l) :: ls

/-- Python `needle in hay` (contiguous substring test). -/
def containsStr (needle : Str) : Str → Bool
  | [] => needle.isEmpty
  | c :: t => needle.isPrefixOf (c :: t) || containsStr needle t

/-- Python `s.split(":")[-1]`: the text after the final colon, or the whole
string when no colon occurs. -/
def afterLastColon (s : Str) : Str :=
  (s.reverse.takeWhile (fun c => c != ':')).reverse

/-- Drop one leading occurrence of `ch`, if present (used for the optional
pieces of the option-line regular expressions). -/
def dropOpt (ch : Char) (s : Str) : Str :=
  match s with
  | [] => []
  | c :: t => if c = ch then t else s

/-- Python `s.replace(sub, "", 1)` for the one-character substring case:
remove the first occurrence of `ch`. -/
def removeFirstChar (ch : Char) : Str → Str
  | [] => []
  | c :: t => if c = ch then t else c :: removeFirstChar ch t

/-- Python `"\n".join(lines)`. -/
def joinNl : List Str → Str
  | [] => []
  | l :: ls =>
    match ls with
    | [] => l
    | _ :: _ => l ++ '\n' :: joinNl ls

/-- Digit run with Python's underscore grouping (`digit+ ('_' digit+)*`),
accumulating the numeric value; `prev` records whether the previous
character was a digit.  Returns `none` when the run is not a valid
Python integer literal body. -/
def digitsAcc : Str → Nat → Bool → Option Nat
  | [], acc, prev => if prev then some acc else none
  | c :: t, acc, prev =>
    if c.isDigit then digitsAcc t (acc * 10 + (c.toNat - 48)) true
    else if c = '_' then (if prev then digitsAcc t acc false else none)
    else none

/-- Python `int(s)` on a string: strip whitespace, optional sign, digits;
`none` models the `ValueError` the source catches. -/
def pyToInt (s : Str) : Option Int :=
  match pyStrip s with
  | '+' :: r => (digitsAcc r 0 false).map Int.ofNat
  | '-' :: r => (digitsAcc r 0 false).map (fun n => -(Int.ofNat n))
  | r => (digitsAcc r 0 false).map Int.ofNat

/-- The check-mark glyph (U+2705) used by the source to mark correct
options. -/
def checkChar : Char := Char.ofNat 9989

/-- Test for one of the letters `A`..`D`. -/
def isOptLetter (c : Char) : Bool :=
  c == 'A' || c == 'B' || c == 'C' || c == 'D'

/-- Regular expression `^\d+\.\s` of the block splitter: one or more digits,
a dot, then a whitespace character. -/
def isBlockStart (cs : Str) : Bool :=
  match cs with
  | [] => false
  | c :: rest =>
    c.isDigit &&
      (match rest.dropWhile Char.isDigit with
       | '.' :: w :: _ => pyWs w
       | _ => false)

/-- Python `re.split(r'\n(?=\d+\.\s)', text)`: split at every newline that
is followed by a numbered-question marker; the marker stays with the
following block. -/
def splitBlocksAux : Str → List Str
  | [] => [[]]
  | c :: cs =>
    if c = '\n' ∧ isBlockStart cs then [] :: splitBlocksAux cs
    else
      match splitBlocksAux cs with
      | [] => [[c]]
      | l :: ls => (c :: l) :: ls

/-- Regular expression `re.sub(r"^\d+\.\s*", "", s)`: strip a leading
numbered-question marker. -/
def stripNumber (s : Str) : Str :=
  match s with
  | [] => []
  | c :: rest =>
    if c.isDigit then
      match rest.dropWhile Char.isDigit with
      | '.' :: r2 => r2.dropWhile pyWs
      | _ => s
    else s

/-- Regular expression `^([*]?\s*✅?\s*)?[A-D]\)` used as the first
supplement-phase trigger: optional asterisk, whitespace, optional
check-mark, whitespace, then a lettered-option head. -/
def isLetteredStart (s : Str) : Bool :=
  let s1 := dropOpt '*' s
  let s2 := s1.dropWhile pyWs
  let s3 := dropOpt checkChar s2
  let s4 := s3.dropWhile pyWs
  match s4 with
  | c :: p :: _ => isOptLetter c && p == ')'
  | _ => false

/-- Regular expression `^([A-D])\)\s*(.*)` of the option-collection phase:
on success, the letter and the text after the parenthesis and any
whitespace. -/
def matchLettered (s : Str) : Option (Char × Str) :=
  match s with
  | c :: p :: rest =>
    if isOptLetter c ∧ p = ')' then some (c, rest.dropWhile pyWs) else none
  | _ => none

/-- First-character test (used for the `^\*+` and `^✅` line patterns). -/
def startsWithChar (ch : Char) (s : Str) : Bool :=
  match s with
  | c :: _ => c == ch
  | [] => false

/-- Directive token `CORRECT ANSWER`. -/
def CORRECT_TOK : Str := "CORRECT ANSWER".data

/-- Directive token `TYPE:`. -/
def TYPE_TOK : Str := "TYPE:".data

/-- Directive token `POINTS:`. -/
def POINTS_TOK : Str := "POINTS:".data

/-- Internal kind string `MCQ` (single choice). -/
def MCQ : Str := "MCQ".data

/-- Internal kind string `CHECKBOX` (multi choice). -/
def CHECKBOX : Str := "CHECKBOX".data

/-- Internal kind string `DROPDOWN`. -/
def DROPDOWN : Str := "DROPDOWN".data

/-- Internal kind string `SHORT`. -/
def SHORT : Str := "SHORT".data

/-- The code-indicating tokens of `is_code_like` in the source. -/
def codeTokens : List Str :=
  [['='], [':'], "def".data, ['\x7b'], ['\x7d'],
   "return".data, "print".data, "import".data]

/-- A question record as produced by `parse_questions` (the dict with keys
`question`, `type`, `options`, `correct_answers`, `points`,
`description`). -/
structure Question where
  question : Str
  qtype : Str
  options : List Str
  correct_answers : List Str
  points : Int
  description : Str
deriving DecidableEq

/-- Mutable state of the option/directive collection loop of
`parse_questions`: collected options, collected correct answers, the
`TYPE:` override (empty when unset, matching Python falsiness of both
`None` and `""`), the points value, and the `has_lettered_option` flag. -/
structure PState where
  options : List Str
  correct : List Str
  qtype : Str
  points : Int
  hasLettered : Bool
deriving DecidableEq

/-- Initial collection state; `hl` is the `has_lettered_option` value
carried over from the supplement-collection loop. -/
def initState (hl : Bool) : PState :=
  { options := [], correct := [], qtype := [], points := 0, hasLettered := hl }

/-- Result of the supplement-collection loop: the collected code lines, the
`has_lettered_option` flag set when the loop broke on a lettered option,
and the unconsumed remaining lines (starting with the trigger line). -/
structure CodeScan where
  codeLines : List Str
  hl : Bool
  rest : List Str
deriving DecidableEq

/-- The supplement-collection loop of `parse_questions`: consume lines
verbatim until a trigger (lettered option, asterisk line, check-mark line,
`CORRECT ANSWER`, `TYPE:` or `POINTS:`) is seen; the trigger line is not
consumed. -/
def collectCode : List Str → CodeScan
  | [] => { codeLines := [], hl := false, rest := [] }
  | l :: ls =>
    let line := pyStrip l
    if isLetteredStart line then { codeLines := [], hl := true, rest := l :: ls }
    else if startsWithChar '*' line then
      { codeLines := [], hl := false, rest := l :: ls }
    else if startsWithChar checkChar line then
      { codeLines := [], hl := false, rest := l :: ls }
    else if containsStr CORRECT_TOK (pyUpper line) then
      { codeLines := [], hl := false, rest := l :: ls }
    else if containsStr TYPE_TOK (pyUpper line) ∨ containsStr POINTS_TOK (pyUpper line) then
      { codeLines := [], hl := false, rest := l :: ls }
    else
      let r := collectCode ls
      { codeLines := l :: r.codeLines, hl := r.hl, rest := r.rest }

/-- One step of the option/directive collection loop of `parse_questions`:
classify one line (blank line, `CORRECT ANSWER`, `TYPE:`, `POINTS:`, or
option line) and update the state, exactly as the source does. -/
def procLine (st : PState) (rawL : Str) : PState :=
  let raw := pyStrip rawL
  if raw = [] then st
  else if containsStr CORRECT_TOK (pyUpper raw) then
    let letters := splitOnChar ',' (pyStrip (afterLastColon raw))
    { st with correct := st.correct ++
        letters.flatMap (fun l =>
          st.options.filter (fun o => (pyUpper (pyStrip l) ++ [')']).isPrefixOf o)) }
  else if containsStr TYPE_TOK (pyUpper raw) then
    { st with qtype := pyUpper (pyStrip (afterLastColon raw)) }
  else if containsStr POINTS_TOK (pyUpper raw) then
    { st with points := (pyToInt (pyStrip (afterLastColon raw))).getD 0 }
  else
    let line1 := pyStrip (raw.dropWhile (fun c => c == '*'))
    let isCorr := startsWithChar checkChar line1
    let line := if isCorr then pyStrip (removeFirstChar checkChar line1) else line1
    match matchLettered line with
    | some (c, txt0) =>
      let fullOpt := c :: ')' :: ' ' :: pyStrip txt0
      { st with options := st.options ++ [fullOpt],
                correct := if isCorr then st.correct ++ [fullOpt] else st.correct,
                hasLettered := true }
    | none =>
      if line ≠ [] then
        { st with options := st.options ++ [line],
                  correct := if isCorr then st.correct ++ [line] else st.correct }
      else st

/-- The option/directive collection loop over the remaining lines. -/
def runLines (ls : List Str) (st : PState) : PState := ls.foldl procLine st

/-- Type inference of `parse_questions` (`if not qtype:`): a `TYPE:`
override (non-empty, matching Python truthiness) wins; otherwise
`CHECKBOX` with more than one correct answer, `MCQ` with options, `SHORT`
with none. -/
def inferKind (st : PState) : Str :=
  if st.qtype = [] then
    if st.options ≠ [] then
      (if st.correct.length > 1 then CHECKBOX else MCQ)
    else SHORT
  else st.qtype

/-- Per-block phases of `parse_questions`: title extraction, supplement
collection, option/directive collection, type inference, and the
short-answer demotion fallback. -/
def mkQuestion (qline : Str) (rest : List Str) : Question :=
  let question_text := stripNumber (pyStrip qline)
  let scan := collectCode rest
  let code_block := joinNl scan.codeLines
  let is_code_like := codeTokens.any (fun t => containsStr t code_block)
  let has_code := (pyStrip code_block ≠ []) ∧ is_code_like = true
  let description := if has_code then code_block else []
  let st := runLines scan.rest (initState scan.hl)
  let qtype := inferKind st
  if ¬ has_code ∧ st.options ≠ [] ∧ st.correct = [] ∧ st.hasLettered = false then
    { question := question_text, qtype := SHORT, options := [],
      correct_answers := st.correct, points := st.points,
      description := pyStrip (joinNl (st.options.map (fun o => '-' :: ' ' :: o))) }
  else
    { question := question_text, qtype := qtype, options := st.options,
      correct_answers := st.correct, points := st.points,
      description := pyStrip description }

/-- One block of `parse_questions`: split into lines and build a question;
`none` models the `if not lines: continue` guard of the source. -/
def parseBlock (block : Str) : Option Question :=
  match splitOnChar '\n' (pyStrip block) with
  | [] => none
  | qline :: rest => some (mkQuestion qline rest)

/-- The parser `parse_questions` of the source: split the stripped input
into numbered blocks and build one question per block. -/
def parse_questions (text : String) : List Question :=
  (splitBlocksAux (pyStrip text.data)).filterMap parseBlock

/-- The body of a `questionItem` built by `create_google_form`: a choice
question (with mapped type string, option values and the shuffle flag), a
text question, a date or time question, or no payload at all when the
record's kind matches none of the handled branches. -/
inductive QPayload
  | choice (ctype : Str) (options : List Str) (shuffle : Bool)
  | text (paragraph : Bool)
  | date
  | time
  | plain
deriving DecidableEq

/-- The item of a `createItem` request: title, description, the `required`
flag and the question payload. -/
structure Item where
  title : Str
  description : Str
  required : Bool
  payload : QPayload
deriving DecidableEq

/-- Abstract edit operations of the batch update built by
`create_google_form`: the quiz-settings update, `createItem` at an index,
and the grading `updateItem` at an index. -/
inductive Operation
  | enableQuiz
  | insertQuestion (item : Item) (index : Nat)
  | setGrading (index : Nat) (correctValues : List Str) (pointValue : Int)
deriving DecidableEq

/-- Python `s.split("\n", 1)`: the text before and after the first
newline. -/
def splitFirstNl : Str → Str × Str
  | [] => ([], [])
  | c :: t =>
    if c = '\n' then ([], t)
    else
      let p := splitFirstNl t
      (c :: p.1, p.2)

/-- The kind-string map of `create_google_form`
(`MCQ→RADIO`, `CHECKBOX→CHECKBOX`, `DROPDOWN→DROP_DOWN`). -/
def qtypeMap (t : Str) : Str :=
  if t = MCQ then "RADIO".data
  else if t = CHECKBOX then "CHECKBOX".data
  else "DROP_DOWN".data

/-- The item built for one record by `create_google_form`: title /
description splitting on the first embedded newline (falling back to the
parser's description), newline sanitising of the title, `required` always
set, and the per-kind question payload. -/
def buildItem (q : Question) (shuffle : Bool) : Item :=
  let td :=
    if q.question.contains '\n' then
      let parts := splitFirstNl q.question
      (pyStrip parts.1, parts.2)
    else (pyStrip q.question, q.description)
  let title := td.1.map (fun c => if c = '\n' then ' ' else c)
  let payload :=
    if q.qtype = MCQ ∨ q.qtype = CHECKBOX ∨ q.qtype = DROPDOWN then
      QPayload.choice (qtypeMap q.qtype) q.options shuffle
    else if q.qtype = SHORT then QPayload.text false
    else if q.qtype = "LONG".data then QPayload.text true
    else if q.qtype = "DATE".data then QPayload.date
    else if q.qtype = "TIME".data then QPayload.time
    else QPayload.plain
  { title := title, description := td.2, required := true, payload := payload }

/-- The grading condition of `create_google_form`:
`quiz_mode and q["correct_answers"] and q["type"] in ["MCQ", "CHECKBOX"]`. -/
def gradeCond (quiz_mode : Bool) (q : Question) : Prop :=
  quiz_mode = true ∧ q.correct_answers ≠ [] ∧ (q.qtype = MCQ ∨ q.qtype = CHECKBOX)

instance (qz : Bool) (q : Question) : Decidable (gradeCond qz q) := by
  unfold gradeCond; infer_instance

/-- The grading point value of `create_google_form`:
`q["points"] if q["points"] else 1` (Python truthiness: any nonzero value
passes through, zero becomes 1). -/
def gradePv (q : Question) : Int :=
  if q.points = 0 then 1 else q.points

/-- The operations emitted for one record: a `createItem` at index 0,
followed by a grading `updateItem` at index 0 when the grading condition
holds. -/
def emitQuestion (shuffle quiz_mode : Bool) (q : Question) : List Operation :=
  Operation.insertQuestion (buildItem q shuffle) 0 ::
    (if gradeCond quiz_mode q then
       [Operation.setGrading 0 q.correct_answers (gradePv q)]
     else [])

/-- The per-record emission loop of `create_google_form`, over an already
reversed record list. -/
def emitAll (shuffle quiz_mode : Bool) : List Question → List Operation
  | [] => []
  | q :: qs => emitQuestion shuffle quiz_mode q ++ emitAll shuffle quiz_mode qs

/-- The full request list of `create_google_form`: the quiz-settings update
first when quiz mode is on, then the per-record operations for the records
in reverse input order. -/
def buildRequests (qs : List Question) (shuffle quiz_mode : Bool) : List Operation :=
  (if quiz_mode then [Operation.enableQuiz] else []) ++
    emitAll shuffle quiz_mode qs.reverse

/-- The request compiler `create_google_form` of the source, restricted to
its pure part: the first component records whether a new form must be
created (`if not form_id:` — missing or empty identifier), the second is
the batch of operations. -/
def create_google_form (parsed_questions : List Question) (shuffle : Bool)
    (form_id : Option Str) (quiz_mode : Bool) : Bool × List Operation :=
  (match form_id with
   | none => true
   | some s => s.isEmpty,
   buildRequests parsed_questions shuffle quiz_mode)

/-- Extract the payload of an insertion operation, `none` otherwise. -/
def insertOf : Operation → Option (Item × Nat)
  | Operation.insertQuestion it idx => some (it, idx)
  | _ => none

/-- The subsequence of insertion operations of an operation list. -/
def insertsOf (ops : List Operation) : List (Item × Nat) :=
  ops.filterMap insertOf

/-- Recogniser for grading operations. -/
def isSetGrading : Operation → Bool
  | Operation.setGrading _ _ _ => true
  | _ => false

/-- Extract the point value of a grading operation, `none` otherwise. -/
def gradingPvOf : Operation → Option Int
  | Operation.setGrading _ _ pv => some pv
  | _ => none

/-- Modelled from the spec's words (for comparison with the code): the
number of blocks of the segmentation that are non-empty after trimming and
begin with a numbered marker. -/
def specNumberedBlockCount (text : String) : Nat :=
  ((splitBlocksAux (pyStrip text.data)).filter
    (fun b => !(pyStrip b).isEmpty && isBlockStart (pyStrip b))).length

/-- Input of the spec's Example 2 (bare asterisk options with a
comma-separated `CORRECT ANSWER` directive). -/
def c3input : String := "1. Pick fruits\n* Apple\n* Banana\nCORRECT ANSWER: Apple,Banana"

/-- Input of the spec's Example 3 (dash-prefixed, unmarked options). -/
def c6input : String := "1. Name a color\n- Red\n- Blue"

/-- A drop-down question with a marked correct answer, as produced by the
parser from a `TYPE: DROPDOWN` directive. -/
def c2input : String := "1. Q\nA) x\nCORRECT ANSWER: A\nTYPE: DROPDOWN"

/-- A choice question whose `POINTS:` directive carries a negative value. -/
def c7input : String := "1. Q\nA) x\nCORRECT ANSWER: A\nPOINTS: -3"

/-- A lettered option under an explicit `TYPE: SHORT` override. -/
def c9input : String := "1. Q\nA) x\nTYPE: SHORT"

/-- A single-choice question with a lettered answer directive. -/
def c4input : String := "1. Q\nA) x\nCORRECT ANSWER: A"

/-- The record `parse_questions` produces for `c4input`. -/
def c4rec : Question :=
  { question := "Q".data, qtype := MCQ, options := ["A) x".data],
    correct_answers := ["A) x".data], points := 0, description := [] }

/-- The record `parse_questions` produces for `c9input`. -/
def c9rec : Question :=
  { question := "Q".data, qtype := SHORT, options := ["A) x".data],
    correct_answers := [], points := 0, description := [] }

/-- A single-choice record with a correct answer and five points, used to
instantiate the compiler theorems. -/
def wRec : Question :=
  { question := "Q".data, qtype := MCQ, options := ["A) x".data],
    correct_answers := ["A) x".data], points := 5, description := [] }

/-! Sanity anchor: the spec's Example 1 evaluates as documented. -/

example :
    parse_questions "1. What is 2+2?\nA) 3\nB) 4\nCORRECT ANSWER: B\nPOINTS: 5" =
      [{ question := "What is 2+2?".data, qtype := MCQ,
         options := ["A) 3".data, "B) 4".data],
         correct_answers := ["B) 4".data], points := 5, description := [] }] := by
  decide

/-- The item builder always sets the `required` flag. -/
theorem buildItem_required (q : Question) (sh : Bool) :
    (buildItem q sh).required = true := rfl

/-- The emission for one record contains exactly one insertion, carrying
the built item at index 0. -/
theorem insertsOf_emitQuestion (sh qz : Bool) (q : Question) :
    insertsOf (emitQuestion sh qz q) = [(buildItem q sh, 0)] := by
  by_cases h : gradeCond qz q <;>
    simp [insertsOf, emitQuestion, h, insertOf, List.filterMap_cons]

/-- The insertions of the emission loop are exactly the built items of the
processed records, in processing order. -/
theorem insertsOf_emitAll (sh qz : Bool) (L : List Question) :
    insertsOf (emitAll sh qz L) = L.map (fun q => (buildItem q sh, 0)) := by
  induction L with
  | nil => rfl
  | cons q L ih =>
    have h1 := insertsOf_emitQuestion sh qz q
    simp only [emitAll, insertsOf, List.filterMap_append, List.map_cons] at *
    rw [h1, ih]
    rfl

/-- Claim C1: for every record list and every setting of the flags, the
compiler emits its `InsertQuestion` operations in reverse of the input
order, each at index 0 — the insertion subsequence of the operation list is
exactly the reversed record list's items, so the first insertion is the
last record's and the last insertion is the first record's. -/
theorem claim_C1 (qs : List Question) (shuffle : Bool) (form_id : Option Str)
    (quiz_mode : Bool) :
    insertsOf (create_google_form qs shuffle form_id quiz_mode).2 =
      qs.reverse.map (fun q => (buildItem q shuffle, 0)) := by
  have h := insertsOf_emitAll shuffle quiz_mode qs.reverse
  cases quiz_mode with
  | false => simpa [create_google_form, buildRequests] using h
  | true =>
    simp only [create_google_form, buildRequests, if_pos, List.singleton_append,
      insertsOf, List.filterMap_cons] at *
    simpa [insertOf] using h

/-- Every insertion in the emission loop carries the built item of a
processed record, at index 0. -/
theorem mem_emitAll_insert (sh qz : Bool) (L : List Question) (it : Item)
    (idx : Nat) (h : Operation.insertQuestion it idx ∈ emitAll sh qz L) :
    ∃ q, q ∈ L ∧ it = buildItem q sh ∧ idx = 0 := by
  induction L with
  | nil => simp [emitAll] at h
  | cons q L ih =>
    simp only [emitAll, List.mem_append] at h
    rcases h with h | h
    · simp only [emitQuestion, List.mem_cons] at h
      rcases h with h | h
      · injection h with h1 h2
        exact ⟨q, List.mem_cons_self q L, h1, h2⟩
      · split at h <;> simp at h
    · obtain ⟨q', hq', h1, h2⟩ := ih h
      exact ⟨q', List.mem_cons_of_mem _ hq', h1, h2⟩

/-- Every grading operation in the emission loop belongs to a processed
record satisfying the grading condition, and carries that record's correct
answers and point value at index 0. -/
theorem mem_emitAll_grading (sh qz : Bool) (L : List Question) (i : Nat)
    (cv : List Str) (pv : Int)
    (h : Operation.setGrading i cv pv ∈ emitAll sh qz L) :
    ∃ q, q ∈ L ∧ gradeCond qz q ∧ i = 0 ∧ cv = q.correct_answers ∧
      pv = gradePv q := by
  induction L with
  | nil => simp [emitAll] at h
  | cons q L ih =>
    simp only [emitAll, List.mem_append] at h
    rcases h with h | h
    · simp only [emitQuestion, List.mem_cons] at h
      rcases h with h | h
      · exact absurd h (by simp)
      · split at h
        · next hc =>
            simp only [List.mem_singleton] at h
            injection h with h1 h2 h3
            exact ⟨q, List.mem_cons_self q L, hc, h1, h2, h3⟩
        · simp at h
    · obtain ⟨q', hq', hc, h1, h2, h3⟩ := ih h
      exact ⟨q', List.mem_cons_of_mem _ hq', hc, h1, h2, h3⟩

/-- Claim C10: every `InsertQuestion` operation emitted by the compiler
marks its question as required, for every record list and every setting of
the flags — the generated form never contains an optional question. -/
theorem claim_C10 (qs : List Question) (shuffle : Bool) (form_id : Option Str)
    (quiz_mode : Bool) (it : Item) (idx : Nat)
    (h : Operation.insertQuestion it idx ∈
      (create_google_form qs shuffle form_id quiz_mode).2) :
    it.required = true := by
  simp only [create_google_form, buildRequests, List.mem_append] at h
  rcases h with h | h
  · split at h <;> simp at h
  · obtain ⟨q, _, h1, _⟩ := mem_emitAll_insert shuffle quiz_mode _ it idx h
    rw [h1]
    exact buildItem_required q shuffle

/-- Witness for claim C10 at a concrete record list. -/
theorem claim_C10_witness : (buildItem wRec false).required = true :=
  claim_C10 [wRec] false none true (buildItem wRec false) 0 (by decide)

/-- Counterexample to claim C7 as stated: the parser accepts a negative
`POINTS:` value, and the compiler's grading operation then carries that
negative point value — not `1` — although the record's points are not
positive. -/
theorem claim_C7_cex :
    ((create_google_form (parse_questions c7input) false none true).2.filterMap
        gradingPvOf) = [(-3 : Int)] ∧
      ¬ (0 < (-3 : Int)) ∧ ((-3 : Int) ≠ 1) := by
  decide

/-- Claim C7 (amended): every grading operation the compiler emits sits at
index 0 and carries, for some input record, that record's correct answers
and the point value `points` when `points` is nonzero and `1` when it is
zero; in particular, when the record's points are non-negative this is
exactly "points if positive else 1", and the value is positive. -/
theorem claim_C7 (qs : List Question) (shuffle : Bool) (form_id : Option Str)
    (quiz_mode : Bool) (i : Nat) (cv : List Str) (pv : Int)
    (h : Operation.setGrading i cv pv ∈
      (create_google_form qs shuffle form_id quiz_mode).2) :
    i = 0 ∧ ∃ q, q ∈ qs ∧ cv = q.correct_answers ∧
      pv = (if q.points = 0 then 1 else q.points) ∧
      (0 ≤ q.points → ((0 < q.points → pv = q.points) ∧
        (q.points = 0 → pv = 1) ∧ 0 < pv)) := by
  simp only [create_google_form, buildRequests, List.mem_append] at h
  rcases h with h | h
  · split at h <;> simp at h
  · obtain ⟨q, hq, _, h1, h2, h3⟩ :=
      mem_emitAll_grading shuffle quiz_mode _ i cv pv h
    refine ⟨h1, q, List.mem_reverse.mp hq, h2, ?_, ?_⟩
    · simpa [gradePv] using h3
    · intro hnn
      rw [h3]
      unfold gradePv
      constructor
      · intro hpos
        rw [if_neg (by omega)]
      · constructor
        · intro hz
          rw [if_pos hz]
        · by_cases hz : q.points = 0
          · rw [if_pos hz]; omega
          · rw [if_neg hz]; omega

/-- Witness for claim C7 at a concrete record list. -/
theorem claim_C7_witness :
    (0 : Nat) = 0 ∧ ∃ q, q ∈ [wRec] ∧ ["A) x".data] = q.correct_answers ∧
      (5 : Int) = (if q.points = 0 then 1 else q.points) ∧
      (0 ≤ q.points → ((0 < q.points → (5 : Int) = q.points) ∧
        (q.points = 0 → (5 : Int) = 1) ∧ (0 : Int) < 5)) :=
  claim_C7 [wRec] false none true 0 ["A) x".data] 5 (by decide)

/-- When the emission loop produces anything, its first operation is an
insertion, never a grading operation. -/
theorem emitAll_head_not_grading (sh qz : Bool) (L : List Question) (i : Nat)
    (cv : List Str) (pv : Int)
    (h : (emitAll sh qz L)[0]? = some (Operation.setGrading i cv pv)) :
    False := by
  cases L with
  | nil => simp [emitAll] at h
  | cons q L => simp [emitAll, emitQuestion] at h

/-- Positional description of the emission loop: every insertion at
position `n` is the built item of a processed record `q`, the operation at
position `n + 1` is a grading operation exactly when the grading condition
holds for `q`, and in that case it is exactly that record's grading
operation. -/
theorem emitAll_insert_grading (sh qz : Bool) :
    ∀ (L : List Question) (n : Nat) (it : Item),
      (emitAll sh qz L)[n]? = some (Operation.insertQuestion it 0) →
      ∃ q, q ∈ L ∧ it = buildItem q sh ∧
        ((∃ i cv pv, (emitAll sh qz L)[n + 1]? =
            some (Operation.setGrading i cv pv)) ↔ gradeCond qz q) ∧
        (gradeCond qz q →
          (emitAll sh qz L)[n + 1]? =
            some (Operation.setGrading 0 q.correct_answers (gradePv q))) := by
  intro L
  induction L with
  | nil => intro n it h; simp [emitAll] at h
  | cons q L ih =>
    intro n it h
    by_cases hc : gradeCond qz q
    · have he : emitAll sh qz (q :: L) =
          Operation.insertQuestion (buildItem q sh) 0 ::
            Operation.setGrading 0 q.correct_answers (gradePv q) ::
              emitAll sh qz L := by
        simp [emitAll, emitQuestion, hc]
      rw [he] at h ⊢
      cases n with
      | zero =>
        simp only [List.getElem?_cons_zero, Option.some.injEq] at h
        injection h with h1 h2
        refine ⟨q, List.mem_cons_self q L, h1.symm, ?_, ?_⟩
        · refine iff_of_true ⟨0, q.correct_answers, gradePv q, ?_⟩ hc
          simp
        · intro _; simp
      | succ m =>
        cases m with
        | zero => simp at h
        | succ k =>
          simp only [List.getElem?_cons_succ] at h ⊢
          obtain ⟨q', hq', h1, h2, h3⟩ := ih k it h
          exact ⟨q', List.mem_cons_of_mem _ hq', h1, h2, h3⟩
    · have he : emitAll sh qz (q :: L) =
          Operation.insertQuestion (buildItem q sh) 0 :: emitAll sh qz L := by
        simp [emitAll, emitQuestion, hc]
      rw [he] at h ⊢
      cases n with
      | zero =>
        simp only [List.getElem?_cons_zero, Option.some.injEq] at h
        injection h with h1 h2
        refine ⟨q, List.mem_cons_self q L, h1.symm, ?_, fun hgc => absurd hgc hc⟩
        constructor
        · rintro ⟨i, cv, pv, hg⟩
          simp only [List.getElem?_cons_succ] at hg
          exact absurd hg (fun hg => emitAll_head_not_grading sh qz L i cv pv hg)
        · intro hgc; exact absurd hgc hc
      | succ m =>
        simp only [List.getElem?_cons_succ] at h ⊢
        obtain ⟨q', hq', h1, h2, h3⟩ := ih m it h
        exact ⟨q', List.mem_cons_of_mem _ hq', h1, h2, h3⟩

/-- Claim C2 (amended): in the compiled operation list, a grading operation
appears immediately after a record's insertion if and only if quiz mode is
enabled, the record's kind is `MCQ` (single choice) or `CHECKBOX` (multi
choice) — drop-down records are excluded by the code — and the record's
correct-option list is non-empty; and the grading operation then carries
that record's correct options and point value. -/
theorem claim_C2 (qs : List Question) (shuffle : Bool) (form_id : Option Str)
    (quiz_mode : Bool) (n : Nat) (it : Item)
    (h : ((create_google_form qs shuffle form_id quiz_mode).2)[n]? =
      some (Operation.insertQuestion it 0)) :
    ∃ q, q ∈ qs ∧ it = buildItem q shuffle ∧
      ((∃ i cv pv, ((create_google_form qs shuffle form_id quiz_mode).2)[n + 1]? =
          some (Operation.setGrading i cv pv)) ↔
        (quiz_mode = true ∧ q.correct_answers ≠ [] ∧
          (q.qtype = MCQ ∨ q.qtype = CHECKBOX))) ∧
      ((quiz_mode = true ∧ q.correct_answers ≠ [] ∧
          (q.qtype = MCQ ∨ q.qtype = CHECKBOX)) →
        ((create_google_form qs shuffle form_id quiz_mode).2)[n + 1]? =
          some (Operation.setGrading 0 q.correct_answers
            (if q.points = 0 then 1 else q.points))) := by
  cases quiz_mode with
  | false =>
    have h' : (emitAll shuffle false qs.reverse)[n]? =
        some (Operation.insertQuestion it 0) := h
    obtain ⟨q, hq, h1, h2, h3⟩ :=
      emitAll_insert_grading shuffle false qs.reverse n it h'
    exact ⟨q, List.mem_reverse.mp hq, h1, h2, h3⟩
  | true =>
    have hops : (create_google_form qs shuffle form_id true).2 =
        Operation.enableQuiz :: emitAll shuffle true qs.reverse := rfl
    rw [hops] at h ⊢
    cases n with
    | zero =>
      rw [List.getElem?_cons_zero] at h
      simp at h
    | succ m =>
      rw [List.getElem?_cons_succ] at h
      obtain ⟨q, hq, h1, h2, h3⟩ :=
        emitAll_insert_grading shuffle true qs.reverse m it h
      have e : ∀ k : Nat,
          (Operation.enableQuiz :: emitAll shuffle true qs.reverse)[k + 1]? =
            (emitAll shuffle true qs.reverse)[k]? :=
        fun _ => List.getElem?_cons_succ
      rw [e (m + 1)]
      exact ⟨q, List.mem_reverse.mp hq, h1, h2, h3⟩

/-- Witness for claim C2 at a concrete single-record list under quiz
mode. -/
theorem claim_C2_witness :
    ∃ q, q ∈ [wRec] ∧ buildItem wRec false = buildItem q false ∧
      ((∃ i cv pv, ((create_google_form [wRec] false none true).2)[2]? =
          some (Operation.setGrading i cv pv)) ↔
        (true = true ∧ q.correct_answers ≠ [] ∧
          (q.qtype = MCQ ∨ q.qtype = CHECKBOX))) ∧
      ((true = true ∧ q.correct_answers ≠ [] ∧
          (q.qtype = MCQ ∨ q.qtype = CHECKBOX)) →
        ((create_google_form [wRec] false none true).2)[2]? =
          some (Operation.setGrading 0 q.correct_answers
            (if q.points = 0 then 1 else q.points))) :=
  claim_C2 [wRec] false none true 1 (buildItem wRec false) (by decide)

/-- Counterexample to claim C2 as stated: a drop-down record with a
non-empty correct-option list under quiz mode receives no grading operation
at all — the code's grading condition accepts only the `MCQ` and `CHECKBOX`
kinds, not `DROPDOWN`. -/
theorem claim_C2_cex :
    (parse_questions c2input).map Question.qtype = [DROPDOWN] ∧
      (parse_questions c2input).map Question.correct_answers = [["A) x".data]] ∧
      ((create_google_form (parse_questions c2input) false none true).2.filter
        isSetGrading) = [] := by
  decide

/-- Counterexample to claim C3 as stated: on the Example 2 input the
parser does not return a multi-choice record — the record's kind is
`SHORT`, not `CHECKBOX` (the multi-choice kind), and its options have been
discarded. -/
theorem claim_C3_cex :
    (parse_questions c3input).map Question.qtype = [SHORT] ∧
      (parse_questions c3input).map Question.options = [[]] ∧
      ¬ (SHORT = CHECKBOX) := by
  decide

/-- Claim C3 (amended): parse applied to the Example 2 input returns
exactly one record, demoted to `SHORT`: the comma-separated tokens of the
`CORRECT ANSWER` directive are matched only against already-seen options by
the lettered prefix `TOKEN)` and here match nothing, so no correct options
are collected; the bare asterisk options then trigger the short-answer
demotion — options and correct options come out empty and the would-be
options are rendered as a bulleted supplement. -/
theorem claim_C3 :
    parse_questions c3input =
      [{ question := "Pick fruits".data, qtype := SHORT, options := [],
         correct_answers := [], points := 0,
         description := "- Apple\n- Banana".data }] := by
  decide

/-- Counterexample to claim C6 as stated: on the Example 3 input the
single record's supplement is empty — it contains no rendering of "Red"
(nor of anything else). -/
theorem claim_C6_cex :
    (parse_questions c6input).map Question.description = [[]] ∧
      containsStr "Red".data [] = false := by
  decide

/-- Claim C6 (amended): parse applied to the Example 3 input returns one
record of kind `SHORT` with empty options and an empty supplement: the
dash-prefixed lines trigger none of the supplement-phase breaks, are
collected as supplement candidates, judged not code-like and discarded;
no option lines are ever collected, so the short-answer demotion (and its
bulleted rendering) never fires. -/
theorem claim_C6 :
    parse_questions c6input =
      [{ question := "Name a color".data, qtype := SHORT, options := [],
         correct_answers := [], points := 0, description := [] }] := by
  decide

/-- Counterexample to claim C5 as stated: the empty input has no non-empty
numbered block, yet parse returns one record — the all-whitespace block is
not dropped and is emitted as an empty `SHORT` record. -/
theorem claim_C5_cex :
    (parse_questions "").length = 1 ∧ specNumberedBlockCount "" = 0 ∧
      parse_questions "" =
        [{ question := [], qtype := SHORT, options := [],
           correct_answers := [], points := 0, description := [] }] := by
  decide

/-- Splitting a character list on a separator always yields at least one
(possibly empty) piece, exactly as Python's `str.split`. -/
theorem splitOnChar_ne_nil (sep : Char) (s : Str) : splitOnChar sep s ≠ [] := by
  cases s with
  | nil => simp [splitOnChar]
  | cons c t =>
    simp only [splitOnChar]
    split
    · simp
    · cases h : splitOnChar sep t <;> simp

/-- Every block produces a record: the empty-lines guard of the source is
unreachable because splitting a string on newlines never yields an empty
list. -/
theorem parseBlock_isSome (b : Str) : (parseBlock b).isSome = true := by
  unfold parseBlock
  split
  · next heq => exact absurd heq (splitOnChar_ne_nil _ _)
  · rfl

/-- A `filterMap` whose function succeeds on every element preserves
length. -/
theorem length_filterMap_of_isSome {α β : Type} (f : α → Option β) :
    ∀ L : List α, (∀ a ∈ L, (f a).isSome = true) →
      (L.filterMap f).length = L.length := by
  intro L
  induction L with
  | nil => intro _; rfl
  | cons a L ih =>
    intro h
    have ha := h a (List.mem_cons_self a L)
    rcases hf : f a with _ | b
    · rw [hf] at ha; simp at ha
    · rw [List.filterMap_cons, hf]
      simp only [List.length_cons]
      rw [ih (fun x hx => h x (List.mem_cons_of_mem _ hx))]

/-- Claim C5 (amended): parse terminates and returns exactly one record
per block of the segmentation — including a possibly unnumbered leading
block, and including the single empty block an all-whitespace input
produces — so its length equals the number of split blocks, and no block is
ever dropped. -/
theorem claim_C5 (text : String) :
    (parse_questions text).length =
      (splitBlocksAux (pyStrip text.data)).length := by
  unfold parse_questions
  exact length_filterMap_of_isSome parseBlock _ (fun b _ => parseBlock_isSome b)

/-- One collection step changes the options and correct-answer lists only
by appending, and every newly appended correct answer is drawn from the
resulting option list. -/
theorem procLine_correct_options (st : PState) (l : Str) :
    ∃ newOpts newCorr,
      (procLine st l).options = st.options ++ newOpts ∧
      (procLine st l).correct = st.correct ++ newCorr ∧
      ∀ c ∈ newCorr, c ∈ st.options ++ newOpts := by
  simp only [procLine]
  split_ifs with h1 h2 h3 h4 h5
  · exact ⟨[], [], by simp, by simp, by simp⟩
  · refine ⟨[], _, by simp, rfl, ?_⟩
    intro c hcm
    rw [List.append_nil]
    rw [List.mem_flatMap] at hcm
    obtain ⟨tok, _, hf⟩ := hcm
    exact List.mem_of_mem_filter hf
  · exact ⟨[], [], by simp, by simp, by simp⟩
  · exact ⟨[], [], by simp, by simp, by simp⟩
  all_goals split
  all_goals solve
    | (refine ⟨[], [], ?_, ?_, ?_⟩ <;> simp)
    | (refine ⟨_, _, rfl, rfl, ?_⟩; simp)
    | (refine ⟨_, [], rfl, ?_, ?_⟩ <;> simp)

/-- The collection loop preserves the containment of the correct answers in
the options. -/
theorem runLines_subset (ls : List Str) (st : PState)
    (h : ∀ c ∈ st.correct, c ∈ st.options) :
    ∀ c ∈ (runLines ls st).correct, c ∈ (runLines ls st).options := by
  induction ls generalizing st with
  | nil => exact h
  | cons l ls ih =>
    apply ih
    obtain ⟨no, nc, ho, hc, hn⟩ := procLine_correct_options st l
    intro c hcm
    rw [hc, List.mem_append] at hcm
    rw [ho]
    rcases hcm with hm | hm
    · exact List.mem_append_left _ (h c hm)
    · exact hn c hm

/-- Claim C4: for every input text and every record produced by parse,
every element of the record's correct answers is, by string equality, also
an element of the record's options. -/
theorem claim_C4 (text : String) (r : Question) (hr : r ∈ parse_questions text)
    (c : Str) (hc : c ∈ r.correct_answers) : c ∈ r.options := by
  unfold parse_questions at hr
  rw [List.mem_filterMap] at hr
  obtain ⟨b, _, hb⟩ := hr
  unfold parseBlock at hb
  rcases hsp : splitOnChar '\n' (pyStrip b) with _ | ⟨qline, rest⟩
  · rw [hsp] at hb; simp at hb
  · rw [hsp] at hb
    rw [Option.some.injEq] at hb
    subst hb
    have hsub := runLines_subset (collectCode rest).rest
      (initState (collectCode rest).hl)
      (fun x hx => absurd hx (List.not_mem_nil x))
    revert hc
    simp only [mkQuestion]
    split_ifs with hd hcode
    · intro hc
      have hc' : c ∈ (runLines (collectCode rest).rest
          (initState (collectCode rest).hl)).correct := hc
      rw [hd.2.2.1] at hc'
      exact absurd hc' (List.not_mem_nil c)
    all_goals (intro hc; exact hsub c hc)

/-- Witness for claim C4 at a concrete input. -/
theorem claim_C4_witness : "A) x".data ∈ c4rec.options :=
  claim_C4 c4input c4rec (by decide) ("A) x".data) (by decide)

/-- A line that does not contain the `TYPE:` token leaves the type override
unchanged. -/
theorem procLine_qtype_unchanged (st : PState) (l : Str)
    (hT : ¬ containsStr TYPE_TOK (pyUpper (pyStrip l)) = true) :
    (procLine st l).qtype = st.qtype := by
  simp only [procLine]
  split_ifs with h1 h2 h3 h4 h5
  all_goals try rfl
  all_goals (split <;> rfl)

/-- If the collection loop changed the type override, one of its lines
contains the `TYPE:` token. -/
theorem runLines_type_directive (ls : List Str) (st : PState)
    (h : ¬ (runLines ls st).qtype = st.qtype) :
    ∃ l, l ∈ ls ∧ containsStr TYPE_TOK (pyUpper (pyStrip l)) = true := by
  induction ls generalizing st with
  | nil => exact absurd rfl h
  | cons l ls ih =>
    by_cases hT : containsStr TYPE_TOK (pyUpper (pyStrip l)) = true
    · exact ⟨l, List.mem_cons_self l ls, hT⟩
    · have he : (procLine st l).qtype = st.qtype := procLine_qtype_unchanged st l hT
      have h' : ¬ (runLines ls (procLine st l)).qtype = (procLine st l).qtype := by
        rw [he]; exact h
      obtain ⟨x, hx, ht'⟩ := ih (procLine st l) h'
      exact ⟨x, List.mem_cons_of_mem _ hx, ht'⟩

/-- The lines the supplement phase leaves unconsumed are lines of the
block. -/
theorem collectCode_rest_mem (ls : List Str) :
    ∀ l ∈ (collectCode ls).rest, l ∈ ls := by
  induction ls with
  | nil => intro l hl; exact absurd hl (List.not_mem_nil l)
  | cons a ls ih =>
    intro l hl
    simp only [collectCode] at hl
    split_ifs at hl with h1 h2 h3 h4 h5
    · exact hl
    · exact hl
    · exact hl
    · exact hl
    · exact hl
    · exact List.mem_cons_of_mem _ (ih l hl)

/-- When options were collected, the inferred kind is a choice kind unless
a type override is present. -/
theorem inferKind_choice (st : PState) (hopt : st.options ≠ []) :
    inferKind st = MCQ ∨ inferKind st = CHECKBOX ∨ st.qtype ≠ [] := by
  unfold inferKind
  by_cases hq : st.qtype = []
  · rw [if_pos hq, if_pos hopt]
    by_cases hlen : st.correct.length > 1
    · rw [if_pos hlen]; exact Or.inr (Or.inl rfl)
    · rw [if_neg hlen]; exact Or.inl rfl
  · exact Or.inr (Or.inr hq)

/-- A block record with non-empty options has a choice kind or carries a
type override in its collection state. -/
theorem mkQuestion_kind_cases (qline : Str) (rest : List Str)
    (hopt : (mkQuestion qline rest).options ≠ []) :
    (mkQuestion qline rest).qtype = MCQ ∨
      (mkQuestion qline rest).qtype = CHECKBOX ∨
      (runLines (collectCode rest).rest (initState (collectCode rest).hl)).qtype ≠ [] := by
  revert hopt
  simp only [mkQuestion]
  split_ifs with hd hcode
  · intro hopt; exact absurd rfl hopt
  · intro hopt
    exact inferKind_choice
      (runLines (collectCode rest).rest (initState (collectCode rest).hl)) hopt
  · intro hopt
    exact inferKind_choice
      (runLines (collectCode rest).rest (initState (collectCode rest).hl)) hopt

/-- Counterexample to claim C9 as stated: under an explicit `TYPE: SHORT`
directive a collected lettered option is kept, so a non-choice record comes
out with non-empty options. -/
theorem claim_C9_cex :
    (parse_questions c9input).map Question.qtype = [SHORT] ∧
      (parse_questions c9input).map Question.options = [["A) x".data]] ∧
      ¬ (SHORT = MCQ ∨ SHORT = CHECKBOX ∨ SHORT = DROPDOWN) := by
  decide

/-- Claim C9 (amended): a record produced by parse has non-empty options
only when its kind is one of the choice kinds `MCQ`, `CHECKBOX`,
`DROPDOWN`, or when the record's own block contains a `TYPE:` directive
line — an explicit type override keeps the collected options whatever kind
it names, while inferred non-choice kinds always have empty options. -/
theorem claim_C9 (text : String) (r : Question) (hr : r ∈ parse_questions text)
    (hopt : r.options ≠ []) :
    (r.qtype = MCQ ∨ r.qtype = CHECKBOX ∨ r.qtype = DROPDOWN) ∨
      ∃ b, b ∈ splitBlocksAux (pyStrip text.data) ∧ parseBlock b = some r ∧
        ∃ l, l ∈ splitOnChar '\n' (pyStrip b) ∧
          containsStr TYPE_TOK (pyUpper (pyStrip l)) = true := by
  unfold parse_questions at hr
  rw [List.mem_filterMap] at hr
  obtain ⟨b, hbm, hb⟩ := hr
  have hb0 := hb
  unfold parseBlock at hb
  rcases hsp : splitOnChar '\n' (pyStrip b) with _ | ⟨qline, rest⟩
  · rw [hsp] at hb; simp at hb
  · rw [hsp] at hb
    rw [Option.some.injEq] at hb
    subst hb
    rcases mkQuestion_kind_cases qline rest hopt with hk | hk | hne
    · exact Or.inl (Or.inl hk)
    · exact Or.inl (Or.inr (Or.inl hk))
    · right
      have hne' : ¬ (runLines (collectCode rest).rest
          (initState (collectCode rest).hl)).qtype =
            (initState (collectCode rest).hl).qtype := hne
      obtain ⟨l, hl, ht⟩ := runLines_type_directive _ _ hne'
      refine ⟨b, hbm, hb0, l, ?_, ht⟩
      rw [hsp]
      exact List.mem_cons_of_mem _ (collectCode_rest_mem rest l hl)

/-- Witness for claim C9 at a concrete input with a `TYPE: SHORT`
override. -/
theorem claim_C9_witness :
    ((c9rec.qtype = MCQ ∨ c9rec.qtype = CHECKBOX ∨ c9rec.qtype = DROPDOWN) ∨
      ∃ b, b ∈ splitBlocksAux (pyStrip c9input.data) ∧ parseBlock b = some c9rec ∧
        ∃ l, l ∈ splitOnChar '\n' (pyStrip b) ∧
          containsStr TYPE_TOK (pyUpper (pyStrip l)) = true) :=
  claim_C9 c9input c9rec (by decide) (by decide)

/-- Claim C8: for every line classified as a `POINTS:` directive, the text
after the final colon is parsed as an integer and stored; on parse failure
(modelled by `pyToInt` returning `none`, the caught `ValueError`) the
record's points are set to 0 and the parser — a total function — raises no
error. -/
theorem claim_C8 (st : PState) (rawL : Str)
    (h1 : ¬ pyStrip rawL = [])
    (h2 : ¬ containsStr CORRECT_TOK (pyUpper (pyStrip rawL)) = true)
    (h3 : ¬ containsStr TYPE_TOK (pyUpper (pyStrip rawL)) = true)
    (h4 : containsStr POINTS_TOK (pyUpper (pyStrip rawL)) = true) :
    (procLine st rawL).points =
      (pyToInt (pyStrip (afterLastColon (pyStrip rawL)))).getD 0 ∧
    (pyToInt (pyStrip (afterLastColon (pyStrip rawL))) = none →
      (procLine st rawL).points = 0) := by
  have he : (procLine st rawL).points =
      (pyToInt (pyStrip (afterLastColon (pyStrip rawL)))).getD 0 := by
    simp only [procLine]
    rw [if_neg h1, if_neg h2, if_neg h3, if_pos h4]
  refine ⟨he, fun hn => ?_⟩
  rw [he, hn]
  rfl

/-- Witness for claim C8: the spec's Example 5, a non-numeric
`POINTS: five` directive, yields zero points. -/
theorem claim_C8_witness :
    (procLine (initState false) ("POINTS: five".data)).points = 0 :=
  (claim_C8 (initState false) ("POINTS: five".data) (by decide) (by decide)
    (by decide) (by decide)).2 (by decide)
